import Mathlib

/-!
Verification development for the AI_Tinkerers_ClaudeCode_Redis repository.

Part A embeds the task-orchestration core (State Store, Affinity Scheduler,
Kill Switch).  The orchestration core's implementation files are not present
in the repository checkout; only the specification describes them, so every
definition in Part A carries a doc comment starting with "Modelled from the
spec:" and follows the specification text (sections 3, 4.1, 4.2, 4.4, 8).

Part B embeds the data-layer code that is present:
`scripts/seed_dataset.py` (build_records) and
`backend/data_connector.py` (_apply_filters, _apply_group_by).
Python integers and floats are both modelled as rationals; Python's `round`
(round-half-to-even) is modelled exactly on rationals by pyRound.
-/

namespace Orch

/-- Modelled from the spec: task status enumeration TODO/IN_PROGRESS/REVIEW/DONE/ESCALATED
(spec section 3, Task attributes). -/
inductive Status where
  | TODO
  | IN_PROGRESS
  | REVIEW
  | DONE
  | ESCALATED
deriving DecidableEq, Repr

instance : Fintype Status :=
  ⟨⟨{Status.TODO, Status.IN_PROGRESS, Status.REVIEW, Status.DONE, Status.ESCALATED}, by decide⟩,
   by intro x; cases x <;> decide⟩

/-- Modelled from the spec: a Task record (spec section 3).  `ty` is the task's
"type" attribute (e.g. "feature", "bugfix"); timestamps are abstract naturals. -/
structure Task where
  id : Nat
  title : String
  description : String
  domain : String
  ty : String
  priority : Nat
  status : Status
  retry_count : Nat
  worker_id : Option String
  branch : Option String
  created_at : Option Nat
  started_at : Option Nat
  completed_at : Option Nat
  tokens_used : Nat
  error_log : List (Nat × String)
deriving DecidableEq, Repr

/-- Modelled from the spec: worker status IDLE/WORKING (spec section 3, Worker). -/
inductive WStatus where
  | IDLE
  | WORKING
deriving DecidableEq, Repr

/-- Modelled from the spec: a Worker slot record (spec section 3). -/
structure Worker where
  status : WStatus
  pid : Option Nat
  current_task_id : Option Nat
  branch : Option String
deriving DecidableEq, Repr

/-- Modelled from the spec: session status IDLE/RUNNING/STOPPED (spec section 3, Session). -/
inductive SessStatus where
  | SIDLE
  | RUNNING
  | STOPPED
deriving DecidableEq, Repr

/-- Modelled from the spec: session metadata (spec section 3). -/
structure Session where
  status : SessStatus
  daily_completed : Nat
  total_tokens_used : Nat
deriving DecidableEq, Repr

/-- Modelled from the spec: lifetime metrics counters (spec section 3). -/
structure Metrics where
  total_tasks_completed : Nat
  total_tasks_failed : Nat
deriving DecidableEq, Repr

/-- Modelled from the spec: the State Store document — five ordered task queues,
workers keyed by id, session, metrics, next_task_id, and the max_retries
configuration value (spec sections 3 and 6, persisted state layout). -/
structure Store where
  backlog : List Task
  in_progress : List Task
  review : List Task
  done : List Task
  escalated : List Task
  workers : List (String × Worker)
  session : Session
  metrics : Metrics
  next_task_id : Nat
  max_retries : Nat
deriving DecidableEq, Repr

/-- Modelled from the spec: the queue a given status corresponds to
(spec section 3, Task invariant). -/
def queueOf (s : Store) : Status → List Task
  | Status.TODO => s.backlog
  | Status.IN_PROGRESS => s.in_progress
  | Status.REVIEW => s.review
  | Status.DONE => s.done
  | Status.ESCALATED => s.escalated

/-- Modelled from the spec: replace the queue corresponding to a status. -/
def setQueue (s : Store) : Status → List Task → Store
  | Status.TODO, l => { s with backlog := l }
  | Status.IN_PROGRESS, l => { s with in_progress := l }
  | Status.REVIEW, l => { s with review := l }
  | Status.DONE, l => { s with done := l }
  | Status.ESCALATED, l => { s with escalated := l }

/-- Modelled from the spec: remove the first task with the given id from a queue,
returning the task and the remaining queue; absent ids yield none (spec
section 4.1, failure semantics). -/
def extract (id : Nat) : List Task → Option (Task × List Task)
  | [] => none
  | t :: ts =>
    if t.id = id then some (t, ts)
    else
      match extract id ts with
      | none => none
      | some (u, rest) => some (u, t :: rest)

/-- Modelled from the spec: all tasks in the store, across the five queues. -/
def allTasks (s : Store) : List Task :=
  s.backlog ++ s.in_progress ++ s.review ++ s.done ++ s.escalated

/-- Modelled from the spec: `add_task` assigns the next sequential id, inserts at
the back of backlog with status TODO (spec section 4.1). -/
def add_task (s : Store) (title domain ty description : String) (priority : Nat)
    (now : Nat) : Task × Store :=
  let t : Task :=
    { id := s.next_task_id, title := title, description := description,
      domain := domain, ty := ty, priority := priority, status := Status.TODO,
      retry_count := 0, worker_id := none, branch := none,
      created_at := some now, started_at := none, completed_at := none,
      tokens_used := 0, error_log := [] }
  (t, { s with backlog := s.backlog ++ [t], next_task_id := s.next_task_id + 1 })

/-- Modelled from the spec: status-dependent field updates performed by
`move_task` — IN_PROGRESS sets started_at/worker_id/branch; REVIEW and DONE
set completed_at (spec section 4.1). -/
def applyStatusFields (t : Task) (toS : Status) (w b : Option String) (now : Nat) : Task :=
  match toS with
  | Status.IN_PROGRESS =>
    { t with status := toS, started_at := some now, worker_id := w, branch := b }
  | Status.REVIEW => { t with status := toS, completed_at := some now }
  | Status.DONE => { t with status := toS, completed_at := some now }
  | _ => { t with status := toS }

/-- Modelled from the spec: `move_task` removes the task from the queue implied
by from_status, updates status-dependent fields, appends to the destination
queue; a task not found in the source queue is a no-op returning absent
(spec section 4.1). -/
def move_task (s : Store) (id : Nat) (fromS toS : Status) (w b : Option String)
    (now : Nat) : Option Task × Store :=
  match extract id (queueOf s fromS) with
  | none => (none, s)
  | some (t, rest) =>
    let t' := applyStatusFields t toS w b now
    let s1 := setQueue s fromS rest
    (some t', setQueue s1 toS (queueOf s1 toS ++ [t']))

/-- Modelled from the spec: bump the lifetime failure counter. -/
def bumpFailed (s : Store) : Store :=
  { s with metrics := { s.metrics with total_tasks_failed := s.metrics.total_tasks_failed + 1 } }

/-- Modelled from the spec: bump completion counters — session daily_completed,
session token total and lifetime completed count (spec section 4.1,
complete_task). -/
def bumpCompleted (s : Store) (tokens : Nat) : Store :=
  { s with
    session := { s.session with
      daily_completed := s.session.daily_completed + 1,
      total_tokens_used := s.session.total_tokens_used + tokens },
    metrics := { s.metrics with
      total_tasks_completed := s.metrics.total_tasks_completed + 1 } }

/-- Modelled from the spec: `fail_task` removes from in_progress, appends an
error-log entry, increments retry_count, clears worker_id/branch; when the new
retry_count reaches max_retries the task is appended to escalated with status
ESCALATED and counted in lifetime failures, otherwise it is re-inserted at the
front of backlog with status TODO (spec section 4.1). -/
def fail_task (s : Store) (id : Nat) (msg : String) (now : Nat) : Option Task × Store :=
  match extract id s.in_progress with
  | none => (none, s)
  | some (t, rest) =>
    let t1 : Task :=
      { t with retry_count := t.retry_count + 1,
               error_log := t.error_log ++ [(now, msg)],
               worker_id := none, branch := none }
    let s1 := setQueue s Status.IN_PROGRESS rest
    if s.max_retries ≤ t1.retry_count then
      let t2 := { t1 with status := Status.ESCALATED }
      (some t2,
       bumpFailed (setQueue s1 Status.ESCALATED (queueOf s1 Status.ESCALATED ++ [t2])))
    else
      let t2 := { t1 with status := Status.TODO }
      (some t2, setQueue s1 Status.TODO (t2 :: queueOf s1 Status.TODO))

/-- Modelled from the spec: `complete_task` performs the REVIEW to DONE move,
records tokens_used and increments session and lifetime counters
(spec section 4.1). -/
def complete_task (s : Store) (id : Nat) (tokens : Nat) (now : Nat) : Option Task × Store :=
  match extract id s.review with
  | none => (none, s)
  | some (t, rest) =>
    let t' : Task :=
      { t with status := Status.DONE, completed_at := some now, tokens_used := tokens }
    let s1 := setQueue s Status.REVIEW rest
    (some t', bumpCompleted (setQueue s1 Status.DONE (queueOf s1 Status.DONE ++ [t'])) tokens)

/-- Modelled from the spec: a partial update of worker fields, each field
optionally present (spec section 4.1, update_worker merges given fields). -/
structure WorkerPatch where
  status : Option WStatus
  pid : Option (Option Nat)
  current_task_id : Option (Option Nat)
  branch : Option (Option String)
deriving DecidableEq, Repr

/-- Modelled from the spec: merge a patch into a worker record. -/
def mergeWorker (w : Worker) (p : WorkerPatch) : Worker :=
  { status := p.status.getD w.status,
    pid := p.pid.getD w.pid,
    current_task_id := p.current_task_id.getD w.current_task_id,
    branch := p.branch.getD w.branch }

/-- Modelled from the spec: `update_worker` merges the given fields into the
worker record with the given id; a missing worker id is a silent no-op
returning absent (spec section 4.1, failure semantics). -/
def update_worker (s : Store) (wid : String) (p : WorkerPatch) : Option Worker × Store :=
  match s.workers.lookup wid with
  | none => (none, s)
  | some w =>
    let w' := mergeWorker w p
    (some w',
     { s with workers := s.workers.map (fun kv => if kv.1 = wid then (kv.1, w') else kv) })

/-- Modelled from the spec: the queue-disjointness and status-consistency
invariant — task ids across the five queues are pairwise distinct, every task
carries the status of the queue it occupies, and all ids are below
next_task_id (spec section 3, Task invariant; section 8, queue disjointness). -/
def Inv (s : Store) : Prop :=
  ((allTasks s).map Task.id).Nodup ∧
  (∀ st : Status, ∀ t ∈ queueOf s st, t.status = st) ∧
  (∀ t ∈ allTasks s, t.id < s.next_task_id)

instance (s : Store) : Decidable (Inv s) := by
  unfold Inv
  infer_instance

/-- Modelled from the spec: how many of the five queues contain a task with the
given id, counted with multiplicity (spec section 8, queue disjointness). -/
def occurrencesOf (s : Store) (id : Nat) : Nat :=
  s.backlog.countP (fun t => t.id == id) +
  s.in_progress.countP (fun t => t.id == id) +
  s.review.countP (fun t => t.id == id) +
  s.done.countP (fun t => t.id == id) +
  s.escalated.countP (fun t => t.id == id)

/-- Modelled from the spec: the scheduler's weight constants
PRIORITY_WEIGHT=10, DOMAIN_AFFINITY_WEIGHT=30, TYPE_AFFINITY_WEIGHT=10,
RECENCY_WEIGHT=5 (spec section 4.2). -/
def PRIORITY_WEIGHT : Nat := 10

/-- Modelled from the spec: domain-affinity weight constant (spec section 4.2). -/
def DOMAIN_AFFINITY_WEIGHT : Nat := 30

/-- Modelled from the spec: type-affinity weight constant (spec section 4.2). -/
def TYPE_AFFINITY_WEIGHT : Nat := 10

/-- Modelled from the spec: recency weight constant (spec section 4.2). -/
def RECENCY_WEIGHT : Nat := 5

/-- Modelled from the spec: the fixed, asymmetric domain adjacency table.  The
spec fixes the entry auth mapping to api, security and user and states the
lookup is one-directional from the worker's primary domain; entries beyond the
given example are unspecified, so the model carries exactly that entry
(spec sections 4.2 and 8, domain bonus asymmetry). -/
def RELATED_DOMAINS : List (String × List String) :=
  [("auth", ["api", "security", "user"])]

/-- Modelled from the spec: domains related to a primary domain, one-directional
lookup in the adjacency table (spec section 4.2). -/
def relatedTo (primary : String) : List String :=
  (RELATED_DOMAINS.lookup primary).getD []

/-- Modelled from the spec: auxiliary scan for pickMostFrequent; `whole` is the
full list counts are taken in. -/
def mfAux (whole : List String) : List String → Option String
  | [] => none
  | x :: xs =>
    match mfAux whole xs with
    | none => some x
    | some y => if whole.count x < whole.count y then some y else some x

/-- Modelled from the spec: pick the most frequent element of a list, ties
broken by iteration order, i.e. the earliest element attaining the maximal
count wins (spec section 4.2, worker affinity profile). -/
def pickMostFrequent (l : List String) : Option String :=
  mfAux l l

/-- Modelled from the spec: the primary domain of a worker's last five completed
tasks — the most frequent domain among them (spec section 4.2). -/
def primaryDomain (lastFive : List Task) : Option String :=
  pickMostFrequent (lastFive.map Task.domain)

/-- Modelled from the spec: the primary type of a worker's last five completed
tasks — the most frequent type among them (spec section 4.2). -/
def primaryType (lastFive : List Task) : Option String :=
  pickMostFrequent (lastFive.map Task.ty)

/-- Modelled from the spec: the domain bonus — DOMAIN_AFFINITY_WEIGHT on an
exact match with the worker's primary domain, half that when the task's domain
is listed as related to the primary domain, else 0 (spec section 4.2). -/
def domainBonus (primary : Option String) (taskDomain : String) : Nat :=
  match primary with
  | none => 0
  | some p =>
    if taskDomain = p then DOMAIN_AFFINITY_WEIGHT
    else if taskDomain ∈ relatedTo p then DOMAIN_AFFINITY_WEIGHT / 2
    else 0

/-- Modelled from the spec: the type bonus — TYPE_AFFINITY_WEIGHT when the task
type equals the worker's primary type, else 0 (spec section 4.2). -/
def typeBonus (primary : Option String) (taskTy : String) : Nat :=
  match primary with
  | none => 0
  | some p => if taskTy = p then TYPE_AFFINITY_WEIGHT else 0

/-- Modelled from the spec: recency scan — walk the worker's last five completed
tasks from most recent to least recent; at the most recent entry whose domain
matches the candidate task's domain, award RECENCY_WEIGHT * (5 - position)
(spec section 4.2). -/
def recencyAux (taskDomain : String) : Nat → List Task → Nat
  | _, [] => 0
  | i, t :: ts =>
    if t.domain = taskDomain then RECENCY_WEIGHT * (5 - i)
    else recencyAux taskDomain (i + 1) ts

/-- Modelled from the spec: the scheduler's score of a candidate task against a
worker's history, most recent completed task first; the profile is computed
from the last five completed tasks (spec section 4.2). -/
def scoreTask (t : Task) (history : List Task) : Nat :=
  let lastFive := history.take 5
  (11 - t.priority) * PRIORITY_WEIGHT +
  domainBonus (primaryDomain lastFive) t.domain +
  typeBonus (primaryType lastFive) t.ty +
  recencyAux t.domain 0 lastFive

/-- Modelled from the spec: first task in input order attaining the maximal
score — the documented deterministic tie-break (spec section 4.2). -/
def bestTask (f : Task → Nat) : List Task → Option Task
  | [] => none
  | t :: ts =>
    match bestTask f ts with
    | none => some t
    | some u => if f t < f u then some u else some t

/-- Modelled from the spec: `select_task_for_worker` scores every backlog task
for the worker's history and returns the highest-scoring one, first in input
order among ties (spec section 4.2). -/
def select_task_for_worker (history : List Task) (backlog : List Task) : Option Task :=
  bestTask (fun t => scoreTask t history) backlog

/-- Modelled from the spec: one scheduler call as observed by a caller holding
ambient state of an arbitrary type — the scheduler is pure with respect to its
inputs and must not mutate state itself (spec section 4.2). -/
def schedulerCall (S : Type) (history backlog : List Task) (st : S) : Option Task × S :=
  (select_task_for_worker history backlog, st)

/-- Modelled from the spec: kill-switch phase, NOT_TRIGGERED to TRIGGERED with
TRIGGERED terminal (spec section 4.4). -/
inductive KPhase where
  | NOT_TRIGGERED
  | TRIGGERED
deriving DecidableEq, Repr

/-- Modelled from the spec: termination signals sent by the kill switch
(spec section 4.4). -/
inductive Sig where
  | SIGTERM
  | SIGKILL
deriving DecidableEq, Repr

/-- Modelled from the spec: events observable during a kill-switch trigger run —
the state snapshot, a signal to a worker pid, and the session-stop mark
(spec sections 4.4 and 8). -/
inductive KEvent where
  | snapshot (ts : Nat)
  | signal (pid : Nat) (sig : Sig)
  | sessionStop
deriving DecidableEq, Repr

/-- Modelled from the spec: the kill switch's observable state — phase,
snapshots written, signals sent, session status and warning count
(spec section 4.4). -/
structure KSState where
  phase : KPhase
  snapshots : List Nat
  signalsSent : List (Nat × Sig)
  sessionStatus : SessStatus
  warnings : Nat
deriving DecidableEq, Repr

/-- Modelled from the spec: the trigger(force) sequence — when already
TRIGGERED, a no-op apart from a logged warning; otherwise snapshot first, then
signal every active worker pid (SIGTERM, or SIGKILL when force), then when not
forced sleep for the graceful-timeout window, re-check and SIGKILL stragglers,
then mark the session stopped.  `alive timeout pid` abstracts whether a pid is
still alive after waiting `timeout` seconds.  Returns the new state and the
ordered event trace (spec section 4.4). -/
def triggerRun (st : KSState) (force : Bool) (pids : List Nat)
    (alive : Nat → Nat → Bool) (timeout : Nat) (now : Nat) : KSState × List KEvent :=
  if st.phase = KPhase.TRIGGERED then
    ({ st with warnings := st.warnings + 1 }, [])
  else
    let sig := if force then Sig.SIGKILL else Sig.SIGTERM
    let firstWave := pids.map (fun p => (p, sig))
    let stragglers :=
      if force then []
      else (pids.filter (alive timeout)).map (fun p => (p, Sig.SIGKILL))
    let sent := firstWave ++ stragglers
    let st' : KSState :=
      { phase := KPhase.TRIGGERED,
        snapshots := st.snapshots ++ [now],
        signalsSent := st.signalsSent ++ sent,
        sessionStatus := SessStatus.STOPPED,
        warnings := st.warnings }
    (st', KEvent.snapshot now :: (sent.map (fun ps => KEvent.signal ps.1 ps.2) ++ [KEvent.sessionStop]))

/-- Modelled from the spec: `trigger` is the state part of the trigger run. -/
def trigger (st : KSState) (force : Bool) (pids : List Nat)
    (alive : Nat → Nat → Bool) (timeout : Nat) (now : Nat) : KSState :=
  (triggerRun st force pids alive timeout now).1

/-- Modelled from the spec: the observable effect of the kill switch —
snapshots written, signals sent and session status; the warning log line is
excluded (spec section 8, idempotent kill switch). -/
def observables (st : KSState) : List Nat × List (Nat × Sig) × SessStatus :=
  (st.snapshots, st.signalsSent, st.sessionStatus)

/-- Modelled from the spec: whether a trace event is a signal. -/
def isSignal : KEvent → Bool
  | KEvent.signal _ _ => true
  | _ => false

/-- Modelled from the spec: whether a trace event is a snapshot. -/
def isSnapshot : KEvent → Bool
  | KEvent.snapshot _ => true
  | _ => false

end Orch

namespace DataLayer

/-- Python's builtin `round` to the nearest integer, half to even, modelled
exactly on rationals (scripts/seed_dataset.py line 114 and
backend/data_connector.py line 155 use `round`). -/
def pyRound (q : ℚ) : ℤ :=
  let f := ⌊q⌋
  let r := q - (f : ℚ)
  if r < 1 / 2 then f
  else if 1 / 2 < r then f + 1
  else if f % 2 = 0 then f else f + 1

/-- One sales record as produced by scripts/seed_dataset.py build_records and
consumed by backend/data_connector.py; Python int and float values are both
modelled as rationals. -/
structure SRecord where
  month : String
  category : String
  region : String
  units_sold : ℚ
  revenue : ℚ
  avg_unit_price : ℚ
deriving DecidableEq, Repr

/-- Per-category annual figures from scripts/seed_dataset.py CATEGORIES. -/
structure CatData where
  total_units : ℚ
  total_revenue : ℚ
  avg_unit_price : ℚ
deriving DecidableEq, Repr

/-- Embeds CATEGORIES of scripts/seed_dataset.py lines 51-57, in source order. -/
def CATEGORIES : List (String × CatData) :=
  [("Road Bikes", ⟨5640, 7332000, 1300⟩),
   ("Mountain Bikes", ⟨4320, 3456000, 800⟩),
   ("E-Bikes", ⟨3480, 8700000, 2500⟩),
   ("Kids Bikes", ⟨6960, 2088000, 300⟩),
   ("Accessories", ⟨18000, 540000, 30⟩)]

/-- Embeds GRAND_TOTAL_REVENUE of scripts/seed_dataset.py line 59. -/
def GRAND_TOTAL_REVENUE : ℚ := 22116000

/-- Embeds MONTHLY_REVENUE_TARGETS of scripts/seed_dataset.py lines 63-76, in
source order. -/
def MONTHLY_REVENUE_TARGETS : List (String × ℚ) :=
  [("2025-01", 1105800), ("2025-02", 1216380), ("2025-03", 1548120),
   ("2025-04", 2100720), ("2025-05", 2543040), ("2025-06", 2764800),
   ("2025-07", 2654520), ("2025-08", 2433960), ("2025-09", 1879560),
   ("2025-10", 1437480), ("2025-11", 1216380), ("2025-12", 1215240)]

/-- Embeds SEASONAL_WEIGHTS of scripts/seed_dataset.py lines 79-82: month
weight = monthly revenue target / grand total revenue. -/
def SEASONAL_WEIGHTS : List (String × ℚ) :=
  MONTHLY_REVENUE_TARGETS.map (fun mr => (mr.1, mr.2 / GRAND_TOTAL_REVENUE))

/-- Embeds REGIONAL_SHARES of scripts/seed_dataset.py lines 85-90, in source
order; the float literals 0.28, 0.22, 0.30, 0.20 are exact rationals. -/
def REGIONAL_SHARES : List (String × ℚ) :=
  [("North", 28 / 100), ("South", 22 / 100), ("East", 30 / 100), ("West", 20 / 100)]

/-- Embeds the record built in the inner loop of build_records
(scripts/seed_dataset.py lines 112-124): raw_revenue scaled by seasonal weight
and regional share, units_sold = max(1, round(raw_revenue / avg_price)),
revenue = units_sold * avg_price. -/
def mkRecord (month : String) (seasonW : ℚ) (catName : String) (cd : CatData)
    (region : String) (regionShare : ℚ) : SRecord :=
  let raw_revenue := cd.total_revenue * seasonW * regionShare
  let units : ℤ := max 1 (pyRound (raw_revenue / cd.avg_unit_price))
  { month := month, category := catName, region := region,
    units_sold := (units : ℚ), revenue := (units : ℚ) * cd.avg_unit_price,
    avg_unit_price := cd.avg_unit_price }

/-- Embeds build_records of scripts/seed_dataset.py lines 97-126: the triple
loop over months (via seasonal weights), categories and regions, in source
iteration order. -/
def build_records : List SRecord :=
  SEASONAL_WEIGHTS.flatMap (fun mw =>
    CATEGORIES.flatMap (fun cat =>
      REGIONAL_SHARES.map (fun rs =>
        mkRecord mw.1 mw.2 cat.1 cat.2 rs.1 rs.2)))

/-- The month/category/region combination carried by a record. -/
def combo (r : SRecord) : String × String × String :=
  (r.month, r.category, r.region)

/-- The twelve month keys of MONTHLY_REVENUE_TARGETS in order. -/
def MONTHS : List String := MONTHLY_REVENUE_TARGETS.map Prod.fst

/-- The five category names of CATEGORIES in order. -/
def CATNAMES : List String := CATEGORIES.map Prod.fst

/-- The four region names of REGIONAL_SHARES in order. -/
def REGIONS : List String := REGIONAL_SHARES.map Prod.fst

/-- The canonical enumeration of all (month, category, region) combinations in
the seeder's iteration order. -/
def allCombos : List (String × String × String) :=
  MONTHS.flatMap (fun m =>
    CATNAMES.flatMap (fun c =>
      REGIONS.map (fun g => (m, c, g))))

/-- The grouping dimensions admitted by the fetch_data tool schema
(backend/data_connector.py lines 73-78: month, category, region). -/
inductive Dim where
  | month
  | category
  | region
deriving DecidableEq, Repr

/-- Look up a record's value for a dimension (the Python code indexes the
record dict by the dimension name). -/
def dimVal (r : SRecord) : Dim → String
  | Dim.month => r.month
  | Dim.category => r.category
  | Dim.region => r.region

/-- The months/categories/regions filter lists of backend/data_connector.py
_apply_filters; an absent key and a present-but-empty list are both modelled as
the empty list since the code tests each one for truthiness. -/
structure Filters where
  months : List String
  categories : List String
  regions : List String
deriving DecidableEq, Repr

/-- One narrowing stage of _apply_filters (backend/data_connector.py lines
112-120): a falsy (empty) filter list leaves the records unchanged, a truthy
one keeps the records whose dimension value is a member of the list (Python's
`in set(xs)` is list membership). -/
def stageFilter (xs : List String) (g : SRecord → String)
    (l : List SRecord) : List SRecord :=
  if xs = [] then l else l.filter (fun r => xs.contains (g r))

/-- Embeds _apply_filters of backend/data_connector.py lines 103-122: an empty
(falsy) filters dict returns the records unchanged; otherwise the records are
successively narrowed by the months, categories and regions stages in that
order. -/
def apply_filters (filters : Option Filters) (records : List SRecord) : List SRecord :=
  match filters with
  | none => records
  | some f =>
    stageFilter f.regions SRecord.region
      (stageFilter f.categories SRecord.category
        (stageFilter f.months SRecord.month records))

/-- One aggregation bucket of _apply_group_by (backend/data_connector.py lines
135-148): the dimension values copied on first encounter, the running units and
revenue sums, and the running units-weighted price sum `_weighted_price`. -/
structure Bucket where
  dims : List (Dim × String)
  units_sold : ℚ
  revenue : ℚ
  weighted_price : ℚ
deriving DecidableEq, Repr

/-- The defaultdict initial bucket of backend/data_connector.py lines 135-137. -/
def emptyBucket : Bucket :=
  { dims := [], units_sold := 0, revenue := 0, weighted_price := 0 }

/-- Embeds the per-record bucket update of backend/data_connector.py lines
141-148: dimension values are copied when the bucket's units and revenue sums
are both zero, then units, revenue and the weighted price are accumulated. -/
def updBucket (group_by : List Dim) (r : SRecord) (b : Bucket) : Bucket :=
  let b1 := if b.units_sold = 0 ∧ b.revenue = 0 then
              { b with dims := group_by.map (fun d => (d, dimVal r d)) }
            else b
  { b1 with units_sold := b1.units_sold + r.units_sold,
            revenue := b1.revenue + r.revenue,
            weighted_price := b1.weighted_price + r.avg_unit_price * r.units_sold }

/-- Modifies the bucket under a key in an insertion-ordered association list,
inserting a fresh default bucket at the end when the key is absent — the
behaviour of Python's insertion-ordered defaultdict at
backend/data_connector.py line 141. -/
def insertOrUpdate (k : List String) (f : Bucket → Bucket) :
    List (List String × Bucket) → List (List String × Bucket)
  | [] => [(k, f emptyBucket)]
  | kb :: rest =>
    if kb.1 = k then (kb.1, f kb.2) :: rest
    else kb :: insertOrUpdate k f rest

/-- One iteration of the grouping loop of backend/data_connector.py lines
139-148: key the record by its group_by dimension values and update its
bucket. -/
def stepGroup (group_by : List Dim) (g : List (List String × Bucket))
    (r : SRecord) : List (List String × Bucket) :=
  insertOrUpdate (group_by.map (dimVal r)) (updBucket group_by r) g

/-- Python's round(x, 2) on rationals — round half to even at two decimals
(backend/data_connector.py line 155). -/
def round2 (q : ℚ) : ℚ := (pyRound (q * 100) : ℚ) / 100

/-- One output row of _apply_group_by: the grouped dimension values, summed
units and revenue, and the weighted average unit price. -/
structure GRow where
  dims : List (Dim × String)
  units_sold : ℚ
  revenue : ℚ
  avg_unit_price : ℚ
deriving DecidableEq, Repr

/-- Embeds the bucket finalisation of backend/data_connector.py lines 150-157:
avg_unit_price = round(weighted / units, 2) when units is nonzero, else 0. -/
def finalizeBucket (b : Bucket) : GRow :=
  { dims := b.dims, units_sold := b.units_sold, revenue := b.revenue,
    avg_unit_price :=
      if b.units_sold = 0 then 0 else round2 (b.weighted_price / b.units_sold) }

/-- The result of _apply_group_by, which returns the input records unchanged
for an empty (falsy) group_by and a list of aggregated buckets otherwise. -/
inductive GroupResult where
  | raw (records : List SRecord)
  | grouped (rows : List GRow)
deriving DecidableEq, Repr

/-- Embeds _apply_group_by of backend/data_connector.py lines 125-159: empty
group_by returns the records unchanged; otherwise every record is folded into
an insertion-ordered bucket map and the buckets are finalised in order. -/
def apply_group_by (records : List SRecord) (group_by : List Dim) : GroupResult :=
  if group_by = [] then GroupResult.raw records
  else
    GroupResult.grouped
      ((records.foldl (stepGroup group_by) []).map (fun kb => finalizeBucket kb.2))

/-- Total revenue over a list of input records. -/
def recRevenueSum (rs : List SRecord) : ℚ := (rs.map SRecord.revenue).sum

/-- Total units over a list of input records. -/
def recUnitsSum (rs : List SRecord) : ℚ := (rs.map SRecord.units_sold).sum

/-- Total revenue over the buckets of a grouping state. -/
def bucketRevenueSum (g : List (List String × Bucket)) : ℚ :=
  (g.map (fun kb => kb.2.revenue)).sum

/-- Total units over the buckets of a grouping state. -/
def bucketUnitsSum (g : List (List String × Bucket)) : ℚ :=
  (g.map (fun kb => kb.2.units_sold)).sum

/-- Total revenue over a group-by result. -/
def resultRevenueSum : GroupResult → ℚ
  | GroupResult.raw rs => recRevenueSum rs
  | GroupResult.grouped rows => (rows.map GRow.revenue).sum

/-- Total units over a group-by result. -/
def resultUnitsSum : GroupResult → ℚ
  | GroupResult.raw rs => recUnitsSum rs
  | GroupResult.grouped rows => (rows.map GRow.units_sold).sum

/-- The record predicate stated by the filtering claim: kept iff its month,
category and region are members of each non-empty corresponding filter list. -/
def keepPred (f : Filters) (r : SRecord) : Bool :=
  (f.months.isEmpty || f.months.contains r.month) &&
  (f.categories.isEmpty || f.categories.contains r.category) &&
  (f.regions.isEmpty || f.regions.contains r.region)

/-- Two concrete sales records used to exercise the grouping function. -/
def sampleRecords : List SRecord :=
  [{ month := "2025-01", category := "E-Bikes", region := "East",
     units_sold := 2, revenue := 5000, avg_unit_price := 2500 },
   { month := "2025-01", category := "E-Bikes", region := "West",
     units_sold := 3, revenue := 7500, avg_unit_price := 2500 }]

end DataLayer

namespace Orch

/-- A concrete in-progress task used to exercise the store operations. -/
def sampleTask : Task :=
  { id := 1, title := "t1", description := "d", domain := "api", ty := "feature",
    priority := 5, status := Status.IN_PROGRESS, retry_count := 0,
    worker_id := some "worker-1", branch := some "b1", created_at := some 0,
    started_at := some 0, completed_at := none, tokens_used := 0, error_log := [] }

/-- A concrete store with one in-progress task used to exercise the store
operations. -/
def sampleStore : Store :=
  { backlog := [], in_progress := [sampleTask], review := [], done := [],
    escalated := [],
    workers := [("worker-1",
      { status := WStatus.WORKING, pid := some 10, current_task_id := some 1,
        branch := some "b1" })],
    session := { status := SessStatus.RUNNING, daily_completed := 0,
                 total_tokens_used := 0 },
    metrics := { total_tasks_completed := 0, total_tasks_failed := 0 },
    next_task_id := 2, max_retries := 3 }

/-- A concrete not-yet-triggered kill-switch state. -/
def sampleKSState : KSState :=
  { phase := KPhase.NOT_TRIGGERED, snapshots := [], signalsSent := [],
    sessionStatus := SessStatus.RUNNING, warnings := 0 }

end Orch

namespace Orch

/-- Claim C3: the kill switch is idempotent — calling trigger twice produces
the same observable state (snapshots written, signals sent, session status) as
calling it once; after any trigger call the switch is in the terminal TRIGGERED
phase, and a trigger call on an already-TRIGGERED state is a no-op apart from
the warning counter. -/
theorem killSwitch_trigger_idempotent (st : KSState) (force : Bool)
    (pids : List Nat) (alive : Nat → Nat → Bool) (timeout : Nat) (now : Nat) :
    observables
        (trigger (trigger st force pids alive timeout now) force pids alive timeout now)
      = observables (trigger st force pids alive timeout now) ∧
    (trigger st force pids alive timeout now).phase = KPhase.TRIGGERED ∧
    trigger { st with phase := KPhase.TRIGGERED } force pids alive timeout now
      = { st with phase := KPhase.TRIGGERED, warnings := st.warnings + 1 } := by
  unfold trigger triggerRun observables
  cases h : st.phase <;> simp

end Orch

namespace Orch

/-- Claim C7: the scheduler is a deterministic pure function of its inputs —
a call leaves the ambient state unchanged, and a second call with identical
inputs after the first returns the same task. -/
theorem scheduler_pure_deterministic (S : Type) (st : S)
    (history backlog : List Task) :
    (schedulerCall S history backlog st).2 = st ∧
    (schedulerCall S history backlog ((schedulerCall S history backlog st).2)).1
      = (schedulerCall S history backlog st).1 :=
  ⟨rfl, rfl⟩

/-- Claim C4: in every trigger run started from a not-yet-triggered kill
switch, every termination signal in the event trace is preceded by the
full-state snapshot, and after trigger(force=false) with
graceful_timeout_seconds=0 returns, the session status is STOPPED. -/
theorem killSwitch_snapshot_before_signals (st : KSState) (force : Bool)
    (pids : List Nat) (alive : Nat → Nat → Bool) (timeout : Nat) (now : Nat)
    (h : st.phase = KPhase.NOT_TRIGGERED) :
    (∀ (i : Nat) (e : KEvent),
      ((triggerRun st force pids alive timeout now).2)[i]? = some e →
      isSignal e = true →
      ∃ (j : Nat) (e' : KEvent), j < i ∧
        ((triggerRun st force pids alive timeout now).2)[j]? = some e' ∧
        isSnapshot e' = true) ∧
    (trigger st false pids alive 0 now).sessionStatus = SessStatus.STOPPED := by
  have htr : ∃ rest, (triggerRun st force pids alive timeout now).2
      = KEvent.snapshot now :: rest := by
    unfold triggerRun
    rw [h]
    simp
  obtain ⟨rest, htr⟩ := htr
  constructor
  · intro i e hie hsig
    rw [htr] at hie
    match i with
    | 0 =>
      exfalso
      simp at hie
      rw [← hie] at hsig
      simp [isSignal] at hsig
    | Nat.succ n =>
      refine ⟨0, KEvent.snapshot now, Nat.succ_pos n, ?_, rfl⟩
      rw [htr]
      simp
  · unfold trigger triggerRun
    rw [h]
    simp

end Orch

namespace Orch

/-- Witness for claim C4: the snapshot-before-signal property instantiated on a
concrete not-yet-triggered kill-switch state. -/
theorem killSwitch_snapshot_before_signals_witness :
    sampleKSState.phase = KPhase.NOT_TRIGGERED ∧
    ((∀ (i : Nat) (e : KEvent),
      ((triggerRun sampleKSState false [10] (fun _ _ => false) 0 5).2)[i]? = some e →
      isSignal e = true →
      ∃ (j : Nat) (e' : KEvent), j < i ∧
        ((triggerRun sampleKSState false [10] (fun _ _ => false) 0 5).2)[j]? = some e' ∧
        isSnapshot e' = true) ∧
    (trigger sampleKSState false [10] (fun _ _ => false) 0 5).sessionStatus
      = SessStatus.STOPPED) :=
  ⟨rfl, killSwitch_snapshot_before_signals sampleKSState false [10]
    (fun _ _ => false) 0 5 rfl⟩

/-- Helper scan lemma: the recency scan starting at offset i awards
RECENCY_WEIGHT * (5 - (i + j)) at the first matching index j. -/
theorem recencyAux_eq_findIdx (d : String) (i : Nat) (l : List Task) :
    recencyAux d i l =
      match l.findIdx? (fun u => u.domain == d) with
      | some j => RECENCY_WEIGHT * (5 - (i + j))
      | none => 0 := by
  induction l generalizing i with
  | nil => rfl
  | cons t ts ih =>
    by_cases hd : t.domain = d
    · simp [recencyAux, hd, List.findIdx?]
    · rw [recencyAux]
      rw [if_neg hd]
      rw [ih (i + 1)]
      have hfd : (t :: ts).findIdx? (fun u => u.domain == d)
          = (ts.findIdx? (fun u => u.domain == d)).map (· + 1) := by
        simp [List.findIdx?, hd]
      rw [hfd]
      cases hts : ts.findIdx? (fun u => u.domain == d) with
      | none => simp
      | some j =>
        have h2 : i + 1 + j = i + (j + 1) := by omega
        simp [h2]

/-- Claim C5: the scheduler's score of a candidate task against a worker
profile equals (11 - priority) * 10 plus a domain bonus of 30 on an exact
primary-domain match and 15 when the task's domain is related to the primary
domain in the fixed one-directional adjacency table (else 0), plus a type
bonus of 10 exactly when the task type equals the primary type, plus a recency
bonus of 5 * (5 - position) at the position of the most recent matching-domain
entry among the worker's last 5 completed tasks (else 0). -/
theorem scheduler_score_formula (t : Task) (history : List Task) :
    scoreTask t history =
      (11 - t.priority) * 10 +
      (match primaryDomain (history.take 5) with
       | none => 0
       | some p =>
         if t.domain = p then 30
         else if t.domain ∈ relatedTo p then 15
         else 0) +
      (match primaryType (history.take 5) with
       | none => 0
       | some p => if t.ty = p then 10 else 0) +
      (match (history.take 5).findIdx? (fun u => u.domain == t.domain) with
       | some j => 5 * (5 - j)
       | none => 0) := by
  simp only [scoreTask]
  rw [recencyAux_eq_findIdx]
  unfold domainBonus typeBonus
  unfold PRIORITY_WEIGHT DOMAIN_AFFINITY_WEIGHT TYPE_AFFINITY_WEIGHT RECENCY_WEIGHT
  simp

end Orch

namespace Orch

/-- Helper: extracting an id absent from a queue yields none. -/
theorem extract_eq_none_of_not_mem (id : Nat) (l : List Task)
    (h : ∀ u ∈ l, u.id ≠ id) : extract id l = none := by
  induction l with
  | nil => rfl
  | cons t ts ih =>
    have ht : t.id ≠ id := h t (List.mem_cons_self t ts)
    rw [extract]
    rw [if_neg ht]
    rw [ih (fun u hu => h u (List.mem_cons_of_mem t hu))]

/-- Claim C1: fail_task on a task present in in_progress increments
retry_count, appends an error-log entry, clears worker_id and branch, and —
when the new retry_count has reached max_retries — moves the task to the
escalated queue with status ESCALATED, counts a lifetime failure and leaves
the backlog untouched; otherwise re-inserts it at the front of the backlog
with status TODO. -/
theorem fail_task_retry_escalate (s : Store) (id : Nat) (msg : String)
    (now : Nat) (t : Task) (rest : List Task)
    (h : extract id s.in_progress = some (t, rest)) :
    ∃ t', (fail_task s id msg now).1 = some t' ∧
      t'.retry_count = t.retry_count + 1 ∧
      t'.error_log = t.error_log ++ [(now, msg)] ∧
      t'.worker_id = none ∧
      t'.branch = none ∧
      (fail_task s id msg now).2.in_progress = rest ∧
      (if s.max_retries ≤ t.retry_count + 1 then
        t'.status = Status.ESCALATED ∧
        (fail_task s id msg now).2.escalated = s.escalated ++ [t'] ∧
        (fail_task s id msg now).2.backlog = s.backlog ∧
        (fail_task s id msg now).2.metrics.total_tasks_failed
          = s.metrics.total_tasks_failed + 1
      else
        t'.status = Status.TODO ∧
        (fail_task s id msg now).2.backlog = t' :: s.backlog ∧
        (fail_task s id msg now).2.escalated = s.escalated ∧
        (fail_task s id msg now).2.metrics.total_tasks_failed
          = s.metrics.total_tasks_failed) := by
  unfold fail_task
  rw [h]
  dsimp only
  by_cases hc : s.max_retries ≤ t.retry_count + 1
  · rw [if_pos hc]
    refine ⟨_, rfl, rfl, rfl, rfl, rfl, rfl, ?_⟩
    rw [if_pos hc]
    exact ⟨rfl, rfl, rfl, rfl⟩
  · rw [if_neg hc]
    refine ⟨_, rfl, rfl, rfl, rfl, rfl, rfl, ?_⟩
    rw [if_neg hc]
    exact ⟨rfl, rfl, rfl, rfl⟩

/-- Witness for claim C1: fail_task applied to a concrete store holding one
in-progress task with retry_count 0 and max_retries 3. -/
theorem fail_task_retry_escalate_witness :
    extract 1 sampleStore.in_progress = some (sampleTask, []) ∧
    (∃ t', (fail_task sampleStore 1 "boom" 7).1 = some t' ∧
      t'.retry_count = sampleTask.retry_count + 1 ∧
      t'.error_log = sampleTask.error_log ++ [(7, "boom")] ∧
      t'.worker_id = none ∧
      t'.branch = none ∧
      (fail_task sampleStore 1 "boom" 7).2.in_progress = [] ∧
      (if sampleStore.max_retries ≤ sampleTask.retry_count + 1 then
        t'.status = Status.ESCALATED ∧
        (fail_task sampleStore 1 "boom" 7).2.escalated
          = sampleStore.escalated ++ [t'] ∧
        (fail_task sampleStore 1 "boom" 7).2.backlog = sampleStore.backlog ∧
        (fail_task sampleStore 1 "boom" 7).2.metrics.total_tasks_failed
          = sampleStore.metrics.total_tasks_failed + 1
      else
        t'.status = Status.TODO ∧
        (fail_task sampleStore 1 "boom" 7).2.backlog = t' :: sampleStore.backlog ∧
        (fail_task sampleStore 1 "boom" 7).2.escalated = sampleStore.escalated ∧
        (fail_task sampleStore 1 "boom" 7).2.metrics.total_tasks_failed
          = sampleStore.metrics.total_tasks_failed)) :=
  ⟨by decide, fail_task_retry_escalate sampleStore 1 "boom" 7 sampleTask [] (by decide)⟩

/-- Claim C6: each update operation invoked with a task id absent from its
own expected queue — move_task from the fromS queue, fail_task from
in_progress, complete_task from review — or a worker id absent from the
registry, returns an absent result and leaves the store unchanged,
independently of where else in the store the id may live. -/
theorem missing_id_noop (s : Store) (id : Nat) (fromS toS : Status)
    (w b : Option String) (now : Nat) (msg : String) (tokens : Nat)
    (wid : String) (p : WorkerPatch) :
    ((∀ u ∈ queueOf s fromS, u.id ≠ id) →
       move_task s id fromS toS w b now = (none, s)) ∧
    ((∀ u ∈ s.in_progress, u.id ≠ id) →
       fail_task s id msg now = (none, s)) ∧
    ((∀ u ∈ s.review, u.id ≠ id) →
       complete_task s id tokens now = (none, s)) ∧
    (s.workers.lookup wid = none →
       update_worker s wid p = (none, s)) := by
  refine ⟨?_, ?_, ?_, ?_⟩
  · intro h1
    unfold move_task
    rw [extract_eq_none_of_not_mem id _ h1]
  · intro h2
    unfold fail_task
    rw [extract_eq_none_of_not_mem id _ h2]
  · intro h3
    unfold complete_task
    rw [extract_eq_none_of_not_mem id _ h3]
  · intro h4
    unfold update_worker
    rw [h4]

/-- Witness for claim C6: the per-operation no-ops instantiated concretely,
including the task-in-another-queue case — task id 1 sits in in_progress of
the sample store, and complete_task 1 (review is its expected queue) and
move_task 1 from the backlog are still no-ops, while fail_task is witnessed
with an id absent from the whole store and update_worker with an unknown
worker id. -/
theorem missing_id_noop_witness :
    ((∀ u ∈ sampleStore.review, u.id ≠ 1) ∧
     complete_task sampleStore 1 50 3 = (none, sampleStore)) ∧
    ((∀ u ∈ queueOf sampleStore Status.TODO, u.id ≠ 1) ∧
     move_task sampleStore 1 Status.TODO Status.IN_PROGRESS (some "w") (some "b") 3
        = (none, sampleStore)) ∧
    ((∀ u ∈ sampleStore.in_progress, u.id ≠ 99) ∧
     fail_task sampleStore 99 "m" 3 = (none, sampleStore)) ∧
    (sampleStore.workers.lookup "ghost" = none ∧
     update_worker sampleStore "ghost"
        { status := some WStatus.IDLE, pid := none, current_task_id := none,
          branch := none } = (none, sampleStore)) :=
  ⟨⟨by decide,
    (missing_id_noop sampleStore 1 Status.TODO Status.IN_PROGRESS (some "w")
      (some "b") 3 "m" 50 "ghost"
      { status := some WStatus.IDLE, pid := none, current_task_id := none,
        branch := none }).2.2.1 (by decide)⟩,
   ⟨by decide,
    (missing_id_noop sampleStore 1 Status.TODO Status.IN_PROGRESS (some "w")
      (some "b") 3 "m" 50 "ghost"
      { status := some WStatus.IDLE, pid := none, current_task_id := none,
        branch := none }).1 (by decide)⟩,
   ⟨by decide,
    (missing_id_noop sampleStore 99 Status.TODO Status.IN_PROGRESS (some "w")
      (some "b") 3 "m" 50 "ghost"
      { status := some WStatus.IDLE, pid := none, current_task_id := none,
        branch := none }).2.1 (by decide)⟩,
   ⟨by decide,
    (missing_id_noop sampleStore 99 Status.TODO Status.IN_PROGRESS (some "w")
      (some "b") 3 "m" 50 "ghost"
      { status := some WStatus.IDLE, pid := none, current_task_id := none,
        branch := none }).2.2.2 (by decide)⟩⟩

end Orch

namespace DataLayer

/-- Helper: a narrowing stage yields a subsequence of its input. -/
theorem stageFilter_sublist (xs : List String) (g : SRecord → String)
    (l : List SRecord) : (stageFilter xs g l).Sublist l := by
  unfold stageFilter
  by_cases h : xs = []
  · rw [if_pos h]
  · rw [if_neg h]
    exact List.filter_sublist l

/-- Helper: membership after one narrowing stage. -/
theorem mem_stageFilter (xs : List String) (g : SRecord → String)
    (l : List SRecord) (r : SRecord) :
    r ∈ stageFilter xs g l ↔
      r ∈ l ∧ (xs.isEmpty || xs.contains (g r)) = true := by
  unfold stageFilter
  by_cases h : xs = []
  · subst h
    simp
  · rw [if_neg h]
    have hne : xs.isEmpty = false := by
      cases xs with
      | nil => exact absurd rfl h
      | cons a as => rfl
    simp [List.mem_filter, hne]

/-- Claim C10: _apply_filters returns a subsequence of the input in original
order, containing a record iff its month, category and region are members of
each non-empty corresponding filter list; an empty (falsy) filters dict, and
a filters dict all of whose lists are empty, return the input unchanged. -/
theorem apply_filters_spec (f : Filters) (records : List SRecord) :
    (apply_filters (some f) records).Sublist records ∧
    (∀ r, r ∈ apply_filters (some f) records ↔
      r ∈ records ∧ keepPred f r = true) ∧
    apply_filters none records = records ∧
    apply_filters (some { months := [], categories := [], regions := [] })
      records = records := by
  refine ⟨?_, ?_, rfl, ?_⟩
  · unfold apply_filters
    exact ((stageFilter_sublist _ _ _).trans
      ((stageFilter_sublist _ _ _).trans (stageFilter_sublist _ _ _)))
  · intro r
    unfold apply_filters
    rw [mem_stageFilter, mem_stageFilter, mem_stageFilter]
    unfold keepPred
    constructor
    · intro hr
      obtain ⟨⟨⟨hrl, hm⟩, hc⟩, hg⟩ := hr
      refine ⟨hrl, ?_⟩
      rw [hm, hc, hg]
      rfl
    · intro hr
      obtain ⟨hrl, hk⟩ := hr
      have hm : (f.months.isEmpty || f.months.contains r.month) = true := by
        cases hx : (f.months.isEmpty || f.months.contains r.month) with
        | true => rfl
        | false => rw [hx] at hk; simp at hk
      have hc : (f.categories.isEmpty || f.categories.contains r.category) = true := by
        cases hx : (f.categories.isEmpty || f.categories.contains r.category) with
        | true => rfl
        | false => rw [hx] at hk; simp at hk
      have hg : (f.regions.isEmpty || f.regions.contains r.region) = true := by
        cases hx : (f.regions.isEmpty || f.regions.contains r.region) with
        | true => rfl
        | false => rw [hx] at hk; simp at hk
      exact ⟨⟨⟨hrl, hm⟩, hc⟩, hg⟩
  · unfold apply_filters stageFilter
    rfl

end DataLayer

namespace DataLayer

/-- Helper: the per-record bucket update adds the record's units and revenue
and changes nothing else about the sums. -/
theorem updBucket_sums (group_by : List Dim) (r : SRecord) (b : Bucket) :
    (updBucket group_by r b).revenue = b.revenue + r.revenue ∧
    (updBucket group_by r b).units_sold = b.units_sold + r.units_sold := by
  unfold updBucket
  by_cases hc : b.units_sold = 0 ∧ b.revenue = 0
  · rw [if_pos hc]
    exact ⟨rfl, rfl⟩
  · rw [if_neg hc]
    exact ⟨rfl, rfl⟩

/-- Helper: updating one key's bucket with an update of known deltas changes
the bucket sums by exactly those deltas. -/
theorem insertOrUpdate_sums (k : List String) (f : Bucket → Bucket)
    (dR dU : ℚ)
    (hrev : ∀ b, (f b).revenue = b.revenue + dR)
    (hun : ∀ b, (f b).units_sold = b.units_sold + dU) :
    ∀ g : List (List String × Bucket),
      bucketRevenueSum (insertOrUpdate k f g) = bucketRevenueSum g + dR ∧
      bucketUnitsSum (insertOrUpdate k f g) = bucketUnitsSum g + dU := by
  intro g
  induction g with
  | nil =>
    constructor
    · simp [insertOrUpdate, bucketRevenueSum, hrev, emptyBucket]
    · simp [insertOrUpdate, bucketUnitsSum, hun, emptyBucket]
  | cons kb rest ih =>
    unfold insertOrUpdate
    by_cases hk : kb.1 = k
    · rw [if_pos hk]
      constructor
      · simp [bucketRevenueSum, hrev]
        ring
      · simp [bucketUnitsSum, hun]
        ring
    · rw [if_neg hk]
      constructor
      · simp only [bucketRevenueSum, List.map_cons, List.sum_cons]
        rw [show ((insertOrUpdate k f rest).map (fun kb => kb.2.revenue)).sum
            = bucketRevenueSum (insertOrUpdate k f rest) from rfl]
        rw [ih.1]
        unfold bucketRevenueSum
        ring
      · simp only [bucketUnitsSum, List.map_cons, List.sum_cons]
        rw [show ((insertOrUpdate k f rest).map (fun kb => kb.2.units_sold)).sum
            = bucketUnitsSum (insertOrUpdate k f rest) from rfl]
        rw [ih.2]
        unfold bucketUnitsSum
        ring

/-- Helper: folding records into the bucket map adds their total units and
revenue to the bucket sums. -/
theorem fold_stepGroup_sums (group_by : List Dim) :
    ∀ (rs : List SRecord) (g : List (List String × Bucket)),
      bucketRevenueSum (rs.foldl (stepGroup group_by) g)
        = bucketRevenueSum g + recRevenueSum rs ∧
      bucketUnitsSum (rs.foldl (stepGroup group_by) g)
        = bucketUnitsSum g + recUnitsSum rs := by
  intro rs
  induction rs with
  | nil =>
    intro g
    constructor
    · simp [recRevenueSum]
    · simp [recUnitsSum]
  | cons r rs' ih =>
    intro g
    rw [List.foldl_cons]
    have hstep := insertOrUpdate_sums (group_by.map (dimVal r)) (updBucket group_by r)
      r.revenue r.units_sold
      (fun b => (updBucket_sums group_by r b).1)
      (fun b => (updBucket_sums group_by r b).2) g
    constructor
    · rw [(ih (stepGroup group_by g r)).1]
      rw [show stepGroup group_by g r
          = insertOrUpdate (group_by.map (dimVal r)) (updBucket group_by r) g from rfl]
      rw [hstep.1]
      unfold recRevenueSum
      simp
      ring
    · rw [(ih (stepGroup group_by g r)).2]
      rw [show stepGroup group_by g r
          = insertOrUpdate (group_by.map (dimVal r)) (updBucket group_by r) g from rfl]
      rw [hstep.2]
      unfold recUnitsSum
      simp
      ring

/-- Claim C9: for every record list and non-empty group_by dimension list,
_apply_group_by preserves totals — the sums of revenue and of units_sold over
the output buckets equal the corresponding sums over the input records. -/
theorem apply_group_by_preserves_sums (records : List SRecord)
    (group_by : List Dim) (h : group_by ≠ []) :
    resultRevenueSum (apply_group_by records group_by) = recRevenueSum records ∧
    resultUnitsSum (apply_group_by records group_by) = recUnitsSum records := by
  unfold apply_group_by
  rw [if_neg h]
  simp only [resultRevenueSum, resultUnitsSum]
  have hrows : ∀ g : List (List String × Bucket),
      ((g.map (fun kb => finalizeBucket kb.2)).map GRow.revenue).sum
        = bucketRevenueSum g ∧
      ((g.map (fun kb => finalizeBucket kb.2)).map GRow.units_sold).sum
        = bucketUnitsSum g := by
    intro g
    constructor
    · unfold bucketRevenueSum
      rw [List.map_map]
      rfl
    · unfold bucketUnitsSum
      rw [List.map_map]
      rfl
  have hfold := fold_stepGroup_sums group_by records []
  constructor
  · rw [(hrows _).1]
    rw [hfold.1]
    simp [bucketRevenueSum]
  · rw [(hrows _).2]
    rw [hfold.2]
    simp [bucketUnitsSum]

/-- Witness for claim C9: sum preservation instantiated on two concrete
records grouped by category. -/
theorem apply_group_by_preserves_sums_witness :
    ([Dim.category] : List Dim) ≠ [] ∧
    (resultRevenueSum (apply_group_by sampleRecords [Dim.category])
        = recRevenueSum sampleRecords ∧
     resultUnitsSum (apply_group_by sampleRecords [Dim.category])
        = recUnitsSum sampleRecords) :=
  ⟨by decide, apply_group_by_preserves_sums sampleRecords [Dim.category] (by decide)⟩

end DataLayer

set_option maxRecDepth 10000

namespace DataLayer

/-- Helper: every record built by the seeder's inner loop satisfies
revenue = units_sold * avg_unit_price and units_sold at least 1. -/
theorem mkRecord_fields (month : String) (seasonW : ℚ) (catName : String)
    (cd : CatData) (region : String) (regionShare : ℚ) :
    (mkRecord month seasonW catName cd region regionShare).revenue
      = (mkRecord month seasonW catName cd region regionShare).units_sold
        * (mkRecord month seasonW catName cd region regionShare).avg_unit_price ∧
    1 ≤ (mkRecord month seasonW catName cd region regionShare).units_sold := by
  constructor
  · rfl
  · show (1 : ℚ) ≤ ((max 1 (pyRound
      (cd.total_revenue * seasonW * regionShare / cd.avg_unit_price)) : ℤ) : ℚ)
    exact_mod_cast le_max_left 1 _

/-- Claim C8: build_records returns exactly 240 records, one for each of the
12 x 5 x 4 (month, category, region) combinations, and every record satisfies
revenue = units_sold * avg_unit_price with units_sold at least 1. -/
theorem build_records_spec :
    build_records.length = 240 ∧
    build_records.map combo = allCombos ∧
    allCombos.Nodup ∧
    ∀ r ∈ build_records,
      r.revenue = r.units_sold * r.avg_unit_price ∧ 1 ≤ r.units_sold := by
  refine ⟨by decide, by rfl, by decide, ?_⟩
  intro r hr
  unfold build_records at hr
  rw [List.mem_flatMap] at hr
  obtain ⟨mw, _, hr⟩ := hr
  rw [List.mem_flatMap] at hr
  obtain ⟨cat, _, hr⟩ := hr
  rw [List.mem_map] at hr
  obtain ⟨rs, _, hr⟩ := hr
  rw [← hr]
  exact mkRecord_fields mw.1 mw.2 cat.1 cat.2 rs.1 rs.2

/-- Witness for claim C8: the per-record facts instantiated at the first
seeded record (January, Road Bikes, North). -/
theorem build_records_spec_witness :
    mkRecord "2025-01" (1105800 / GRAND_TOTAL_REVENUE) "Road Bikes"
        { total_units := 5640, total_revenue := 7332000, avg_unit_price := 1300 }
        "North" (28 / 100) ∈ build_records ∧
    ((mkRecord "2025-01" (1105800 / GRAND_TOTAL_REVENUE) "Road Bikes"
        { total_units := 5640, total_revenue := 7332000, avg_unit_price := 1300 }
        "North" (28 / 100)).revenue
      = (mkRecord "2025-01" (1105800 / GRAND_TOTAL_REVENUE) "Road Bikes"
          { total_units := 5640, total_revenue := 7332000, avg_unit_price := 1300 }
          "North" (28 / 100)).units_sold
        * (mkRecord "2025-01" (1105800 / GRAND_TOTAL_REVENUE) "Road Bikes"
            { total_units := 5640, total_revenue := 7332000, avg_unit_price := 1300 }
            "North" (28 / 100)).avg_unit_price ∧
     1 ≤ (mkRecord "2025-01" (1105800 / GRAND_TOTAL_REVENUE) "Road Bikes"
            { total_units := 5640, total_revenue := 7332000, avg_unit_price := 1300 }
            "North" (28 / 100)).units_sold) := by
  have hmem : mkRecord "2025-01" (1105800 / GRAND_TOTAL_REVENUE) "Road Bikes"
      { total_units := 5640, total_revenue := 7332000, avg_unit_price := 1300 }
      "North" (28 / 100) ∈ build_records := by
    show _ ∈ build_records
    exact List.mem_cons_self _ _
  exact ⟨hmem, build_records_spec.2.2.2 _ hmem⟩

end DataLayer

namespace Orch

/-- Helper: extraction yields a permutation of the queue with the extracted
task at the front. -/
theorem extract_perm (id : Nat) :
    ∀ {l : List Task} {t : Task} {rest : List Task},
      extract id l = some (t, rest) → List.Perm l (t :: rest) := by
  intro l
  induction l with
  | nil =>
    intro t rest h
    simp [extract] at h
  | cons a as ih =>
    intro t rest h
    rw [extract] at h
    by_cases ha : a.id = id
    · rw [if_pos ha] at h
      simp only [Option.some.injEq, Prod.mk.injEq] at h
      obtain ⟨h1, h2⟩ := h
      subst h1
      subst h2
      exact List.Perm.refl _
    · rw [if_neg ha] at h
      cases he : extract id as with
      | none =>
        rw [he] at h
        simp at h
      | some pr =>
        obtain ⟨u, rest2⟩ := pr
        rw [he] at h
        simp only [Option.some.injEq, Prod.mk.injEq] at h
        obtain ⟨h1, h2⟩ := h
        subst h1
        subst h2
        exact ((ih he).cons a).trans (List.Perm.swap _ a rest2)

/-- Helper: the extracted task carries the requested id. -/
theorem extract_task_id (id : Nat) :
    ∀ {l : List Task} {t : Task} {rest : List Task},
      extract id l = some (t, rest) → t.id = id := by
  intro l
  induction l with
  | nil =>
    intro t rest h
    simp [extract] at h
  | cons a as ih =>
    intro t rest h
    rw [extract] at h
    by_cases ha : a.id = id
    · rw [if_pos ha] at h
      simp only [Option.some.injEq, Prod.mk.injEq] at h
      obtain ⟨h1, _⟩ := h
      subst h1
      exact ha
    · rw [if_neg ha] at h
      cases he : extract id as with
      | none =>
        rw [he] at h
        simp at h
      | some pr =>
        obtain ⟨u, rest2⟩ := pr
        rw [he] at h
        simp only [Option.some.injEq, Prod.mk.injEq] at h
        obtain ⟨h1, _⟩ := h
        subst h1
        exact ih he

/-- Helper: pulling a distinguished element over an appended prefix. -/
theorem perm_pull (X : List Task) {m m' : List Task} {t : Task}
    (h : List.Perm m (t :: m')) : List.Perm (X ++ m) (t :: (X ++ m')) :=
  (h.append_left X).trans List.perm_middle

/-- Helper: reading a queue after replacing one. -/
theorem queueOf_setQueue (s : Store) (st st' : Status) (l : List Task) :
    queueOf (setQueue s st l) st' = if st' = st then l else queueOf s st' := by
  cases st <;> cases st' <;> simp [queueOf, setQueue]

/-- Helper: replacing a queue leaves next_task_id unchanged. -/
theorem next_setQueue (s : Store) (st : Status) (l : List Task) :
    (setQueue s st l).next_task_id = s.next_task_id := by
  cases st <;> rfl

/-- Helper: removing an extracted task from its queue splits the store's tasks
as a permutation. -/
theorem allTasks_extract_perm (s : Store) (st : Status) (id : Nat) (t : Task)
    (rest : List Task) (h : extract id (queueOf s st) = some (t, rest)) :
    List.Perm (allTasks s) (t :: allTasks (setQueue s st rest)) := by
  have hp := extract_perm id h
  cases st
  case TODO =>
    simp only [queueOf] at hp
    simp only [allTasks, setQueue, List.append_assoc]
    exact hp.append_right _
  case IN_PROGRESS =>
    simp only [queueOf] at hp
    simp only [allTasks, setQueue, List.append_assoc]
    exact perm_pull _ (hp.append_right _)
  case REVIEW =>
    simp only [queueOf] at hp
    simp only [allTasks, setQueue, List.append_assoc]
    exact perm_pull _ (perm_pull _ (hp.append_right _))
  case DONE =>
    simp only [queueOf] at hp
    simp only [allTasks, setQueue, List.append_assoc]
    exact perm_pull _ (perm_pull _ (perm_pull _ (hp.append_right _)))
  case ESCALATED =>
    simp only [queueOf] at hp
    simp only [allTasks, setQueue, List.append_assoc]
    exact perm_pull _ (perm_pull _ (perm_pull _ (perm_pull _ hp)))

/-- Helper: appending a task at the back of a queue prepends it to the store's
tasks up to permutation. -/
theorem allTasks_pushBack (s : Store) (st : Status) (t : Task) :
    List.Perm (allTasks (setQueue s st (queueOf s st ++ [t])))
      (t :: allTasks s) := by
  cases st
  case TODO =>
    simp only [allTasks, setQueue, queueOf, List.append_assoc, List.singleton_append]
    exact List.perm_middle
  case IN_PROGRESS =>
    simp only [allTasks, setQueue, queueOf, List.append_assoc, List.singleton_append]
    exact perm_pull _ List.perm_middle
  case REVIEW =>
    simp only [allTasks, setQueue, queueOf, List.append_assoc, List.singleton_append]
    exact perm_pull _ (perm_pull _ List.perm_middle)
  case DONE =>
    simp only [allTasks, setQueue, queueOf, List.append_assoc, List.singleton_append]
    exact perm_pull _ (perm_pull _ (perm_pull _ List.perm_middle))
  case ESCALATED =>
    simp only [allTasks, setQueue, queueOf, List.append_assoc]
    exact perm_pull _ (perm_pull _ (perm_pull _
      (perm_pull _ (List.perm_append_singleton t _))))

/-- Helper: inserting a task at the front of a queue prepends it to the
store's tasks up to permutation. -/
theorem allTasks_pushFront (s : Store) (st : Status) (t : Task) :
    List.Perm (allTasks (setQueue s st (t :: queueOf s st)))
      (t :: allTasks s) := by
  cases st
  case TODO =>
    simp only [allTasks, setQueue, queueOf, List.append_assoc, List.cons_append]
    exact List.Perm.refl _
  case IN_PROGRESS =>
    simp only [allTasks, setQueue, queueOf, List.append_assoc, List.cons_append]
    exact List.perm_middle
  case REVIEW =>
    simp only [allTasks, setQueue, queueOf, List.append_assoc, List.cons_append]
    exact perm_pull _ List.perm_middle
  case DONE =>
    simp only [allTasks, setQueue, queueOf, List.append_assoc, List.cons_append]
    exact perm_pull _ (perm_pull _ List.perm_middle)
  case ESCALATED =>
    simp only [allTasks, setQueue, queueOf, List.append_assoc, List.cons_append]
    exact perm_pull _ (perm_pull _ (perm_pull _ List.perm_middle))

end Orch

namespace Orch

/-- Helper: bumping the failure counter does not touch the queues or ids. -/
theorem inv_bumpFailed (s : Store) (h : Inv s) : Inv (bumpFailed s) := by
  obtain ⟨h1, h2, h3⟩ := h
  refine ⟨h1, ?_, h3⟩
  intro st u hu
  have hq : queueOf (bumpFailed s) st = queueOf s st := by
    cases st <;> rfl
  rw [hq] at hu
  exact h2 st u hu

/-- Helper: bumping the completion counters does not touch the queues or ids. -/
theorem inv_bumpCompleted (s : Store) (tokens : Nat) (h : Inv s) :
    Inv (bumpCompleted s tokens) := by
  obtain ⟨h1, h2, h3⟩ := h
  refine ⟨h1, ?_, h3⟩
  intro st u hu
  have hq : queueOf (bumpCompleted s tokens) st = queueOf s st := by
    cases st <;> rfl
  rw [hq] at hu
  exact h2 st u hu

/-- Helper: the invariant is preserved when an extracted task is re-inserted,
with its id preserved and its status set to the destination queue, anywhere in
the destination queue. -/
theorem inv_insert_general (s : Store) (st dest : Status) (id : Nat)
    (t t' : Task) (rest : List Task) (newQ : List Task)
    (h : extract id (queueOf s st) = some (t, rest))
    (hid : t'.id = t.id) (hstat : t'.status = dest) (hInv : Inv s)
    (hperm2 : List.Perm (allTasks (setQueue (setQueue s st rest) dest newQ))
        (t' :: allTasks (setQueue s st rest)))
    (hmemQ : ∀ u ∈ newQ, u ∈ queueOf (setQueue s st rest) dest ∨ u = t') :
    Inv (setQueue (setQueue s st rest) dest newQ) := by
  obtain ⟨hnd, hst, hbound⟩ := hInv
  have hpermS : List.Perm (allTasks s) (t :: allTasks (setQueue s st rest)) :=
    allTasks_extract_perm s st id t rest h
  have hqperm : List.Perm (queueOf s st) (t :: rest) := extract_perm id h
  have hnd1 : (t.id :: (allTasks (setQueue s st rest)).map Task.id).Nodup :=
    ((hpermS.map Task.id).nodup_iff).mp hnd
  have hst1 : ∀ q : Status, ∀ u ∈ queueOf (setQueue s st rest) q, u.status = q := by
    intro q u hu
    rw [queueOf_setQueue] at hu
    by_cases hq : q = st
    · rw [if_pos hq] at hu
      refine hq ▸ hst st u ?_
      exact (hqperm.mem_iff).mpr (List.mem_cons_of_mem t hu)
    · rw [if_neg hq] at hu
      exact hst q u hu
  have hmem1 : ∀ u, u ∈ allTasks (setQueue s st rest) → u ∈ allTasks s := by
    intro u hu
    exact (hpermS.mem_iff).mpr (List.mem_cons_of_mem t hu)
  have htmem : t ∈ allTasks s := (hpermS.mem_iff).mpr (List.mem_cons_self t _)
  refine ⟨?_, ?_, ?_⟩
  · refine ((hperm2.map Task.id).nodup_iff).mpr ?_
    rw [List.map_cons]
    rw [hid]
    exact hnd1
  · intro q u hu
    rw [queueOf_setQueue] at hu
    by_cases hq : q = dest
    · rw [if_pos hq] at hu
      rcases hmemQ u hu with hcase | hcase
      · exact hq ▸ hst1 dest u hcase
      · rw [hcase]
        exact hq ▸ hstat
    · rw [if_neg hq] at hu
      exact hst1 q u hu
  · intro u hu
    have hnext : (setQueue (setQueue s st rest) dest newQ).next_task_id
        = s.next_task_id := by
      rw [next_setQueue, next_setQueue]
    rw [hnext]
    rcases List.mem_cons.mp ((hperm2.mem_iff).mp hu) with hcase | hcase
    · rw [hcase, hid]
      exact hbound t htmem
    · exact hbound u (hmem1 u hcase)

/-- Helper: applyStatusFields preserves the task id. -/
theorem applyStatusFields_id (t : Task) (toS : Status) (w b : Option String)
    (now : Nat) : (applyStatusFields t toS w b now).id = t.id := by
  cases toS <;> rfl

/-- Helper: applyStatusFields sets the task status to the destination. -/
theorem applyStatusFields_status (t : Task) (toS : Status) (w b : Option String)
    (now : Nat) : (applyStatusFields t toS w b now).status = toS := by
  cases toS <;> rfl

/-- Helper: move_task preserves the invariant. -/
theorem inv_move_task (s : Store) (id : Nat) (fromS toS : Status)
    (w b : Option String) (now : Nat) (hInv : Inv s) :
    Inv (move_task s id fromS toS w b now).2 := by
  unfold move_task
  cases h : extract id (queueOf s fromS) with
  | none => exact hInv
  | some pr =>
    obtain ⟨t, rest⟩ := pr
    dsimp only
    refine inv_insert_general s fromS toS id t _ rest _ h
      (applyStatusFields_id t toS w b now)
      (applyStatusFields_status t toS w b now) hInv
      (allTasks_pushBack (setQueue s fromS rest) toS _) ?_
    intro u hu
    rcases List.mem_append.mp hu with hcase | hcase
    · exact Or.inl hcase
    · exact Or.inr (List.mem_singleton.mp hcase)

/-- Helper: fail_task preserves the invariant. -/
theorem inv_fail_task (s : Store) (id : Nat) (msg : String) (now : Nat)
    (hInv : Inv s) : Inv (fail_task s id msg now).2 := by
  unfold fail_task
  cases h : extract id s.in_progress with
  | none => exact hInv
  | some pr =>
    obtain ⟨t, rest⟩ := pr
    dsimp only
    have h' : extract id (queueOf s Status.IN_PROGRESS) = some (t, rest) := h
    by_cases hc : s.max_retries ≤ t.retry_count + 1
    · rw [if_pos hc]
      refine inv_bumpFailed _ ?_
      refine inv_insert_general s Status.IN_PROGRESS Status.ESCALATED id t
        { t with retry_count := t.retry_count + 1,
                 error_log := t.error_log ++ [(now, msg)],
                 worker_id := none, branch := none, status := Status.ESCALATED }
        rest _ h' rfl rfl hInv
        (allTasks_pushBack (setQueue s Status.IN_PROGRESS rest) Status.ESCALATED _) ?_
      intro u hu
      rcases List.mem_append.mp hu with hcase | hcase
      · exact Or.inl hcase
      · exact Or.inr (List.mem_singleton.mp hcase)
    · rw [if_neg hc]
      refine inv_insert_general s Status.IN_PROGRESS Status.TODO id t
        { t with retry_count := t.retry_count + 1,
                 error_log := t.error_log ++ [(now, msg)],
                 worker_id := none, branch := none, status := Status.TODO }
        rest _ h' rfl rfl hInv
        (allTasks_pushFront (setQueue s Status.IN_PROGRESS rest) Status.TODO _) ?_
      intro u hu
      rcases List.mem_cons.mp hu with hcase | hcase
      · exact Or.inr hcase
      · exact Or.inl hcase

/-- Helper: complete_task preserves the invariant. -/
theorem inv_complete_task (s : Store) (id : Nat) (tokens : Nat) (now : Nat)
    (hInv : Inv s) : Inv (complete_task s id tokens now).2 := by
  unfold complete_task
  cases h : extract id s.review with
  | none => exact hInv
  | some pr =>
    obtain ⟨t, rest⟩ := pr
    dsimp only
    have h' : extract id (queueOf s Status.REVIEW) = some (t, rest) := h
    refine inv_bumpCompleted _ tokens ?_
    refine inv_insert_general s Status.REVIEW Status.DONE id t
      { t with status := Status.DONE, completed_at := some now,
               tokens_used := tokens }
      rest _ h' rfl rfl hInv
      (allTasks_pushBack (setQueue s Status.REVIEW rest) Status.DONE _) ?_
    intro u hu
    rcases List.mem_append.mp hu with hcase | hcase
    · exact Or.inl hcase
    · exact Or.inr (List.mem_singleton.mp hcase)

end Orch

namespace Orch

/-- Helper: add_task preserves the invariant. -/
theorem inv_add_task (s : Store) (title domain ty desc : String)
    (prio now : Nat) (hInv : Inv s) :
    Inv (add_task s title domain ty desc prio now).2 := by
  obtain ⟨hnd, hst, hbound⟩ := hInv
  have hperm : List.Perm (allTasks (add_task s title domain ty desc prio now).2)
      (({ id := s.next_task_id, title := title, description := desc,
          domain := domain, ty := ty, priority := prio, status := Status.TODO,
          retry_count := 0, worker_id := none, branch := none,
          created_at := some now, started_at := none, completed_at := none,
          tokens_used := 0, error_log := [] } : Task) :: allTasks s) :=
    allTasks_pushBack s Status.TODO _
  have hqeq : ∀ q : Status, queueOf (add_task s title domain ty desc prio now).2 q
      = queueOf (setQueue s Status.TODO (s.backlog ++
          [{ id := s.next_task_id, title := title, description := desc,
             domain := domain, ty := ty, priority := prio, status := Status.TODO,
             retry_count := 0, worker_id := none, branch := none,
             created_at := some now, started_at := none, completed_at := none,
             tokens_used := 0, error_log := [] }])) q := by
    intro q
    cases q <;> rfl
  refine ⟨?_, ?_, ?_⟩
  · refine ((hperm.map Task.id).nodup_iff).mpr (List.nodup_cons.mpr ⟨?_, hnd⟩)
    intro hmem
    obtain ⟨u, hu, hueq⟩ := List.mem_map.mp hmem
    have := hbound u hu
    rw [hueq] at this
    exact Nat.lt_irrefl _ this
  · intro q u hu
    rw [hqeq q, queueOf_setQueue] at hu
    by_cases hq : q = Status.TODO
    · rw [if_pos hq] at hu
      rcases List.mem_append.mp hu with hcase | hcase
      · exact hq ▸ hst Status.TODO u hcase
      · rw [List.mem_singleton.mp hcase]
        exact hq ▸ rfl
    · rw [if_neg hq] at hu
      exact hst q u hu
  · intro u hu
    have hnext : (add_task s title domain ty desc prio now).2.next_task_id
        = s.next_task_id + 1 := rfl
    rw [hnext]
    rcases List.mem_cons.mp ((hperm.mem_iff).mp hu) with hcase | hcase
    · rw [hcase]
      exact Nat.lt_succ_self _
    · exact Nat.lt_succ_of_lt (hbound u hcase)

/-- Helper: in a store whose task ids are pairwise distinct, a present id
occurs exactly once across the five queues. -/
theorem occurrences_of_nodup (s : Store)
    (hnd : ((allTasks s).map Task.id).Nodup) (tid : Nat)
    (hmem : ∃ u ∈ allTasks s, u.id = tid) : occurrencesOf s tid = 1 := by
  obtain ⟨u, hu, hueq⟩ := hmem
  have hmem2 : tid ∈ (allTasks s).map Task.id := List.mem_map.mpr ⟨u, hu, hueq⟩
  have hcount : ((allTasks s).map Task.id).count tid = 1 :=
    List.count_eq_one_of_mem hnd hmem2
  have hcp : ((allTasks s).map Task.id).count tid
      = (allTasks s).countP (fun t => t.id == tid) := by
    rw [List.count]
    rw [List.countP_map]
    rfl
  have hsplit : (allTasks s).countP (fun t => t.id == tid)
      = occurrencesOf s tid := by
    unfold allTasks occurrencesOf
    simp only [List.countP_append]
  omega

/-- Claim C2: after any settled State Store operation (add_task, move_task,
fail_task, complete_task) on a store satisfying the queue invariant, the
invariant still holds — task ids remain pairwise distinct across the five
queues with every task's status matching its queue — and in an invariant
store every present task id occupies exactly one of the five queues. -/
theorem stateStore_queue_disjointness (s : Store) (hInv : Inv s)
    (title domain ty desc : String) (prio now tokens id : Nat)
    (fromS toS : Status) (w b : Option String) (msg : String) :
    Inv (add_task s title domain ty desc prio now).2 ∧
    Inv (move_task s id fromS toS w b now).2 ∧
    Inv (fail_task s id msg now).2 ∧
    Inv (complete_task s id tokens now).2 ∧
    (∀ tid : Nat, (∃ u ∈ allTasks s, u.id = tid) → occurrencesOf s tid = 1) :=
  ⟨inv_add_task s title domain ty desc prio now hInv,
   inv_move_task s id fromS toS w b now hInv,
   inv_fail_task s id msg now hInv,
   inv_complete_task s id tokens now hInv,
   fun tid hmem => occurrences_of_nodup s hInv.1 tid hmem⟩

/-- Witness for claim C2: the invariant preservation instantiated on a
concrete invariant store. -/
theorem stateStore_queue_disjointness_witness :
    Inv sampleStore ∧
    (Inv (add_task sampleStore "a" "api" "feature" "d" 5 3).2 ∧
     Inv (move_task sampleStore 1 Status.IN_PROGRESS Status.REVIEW
        (some "w") (some "b") 3).2 ∧
     Inv (fail_task sampleStore 1 "m" 3).2 ∧
     Inv (complete_task sampleStore 1 9 3).2 ∧
     (∀ tid : Nat, (∃ u ∈ allTasks sampleStore, u.id = tid) →
        occurrencesOf sampleStore tid = 1)) :=
  ⟨by decide,
   stateStore_queue_disjointness sampleStore (by decide) "a" "api" "feature" "d"
     5 3 9 1 Status.IN_PROGRESS Status.REVIEW (some "w") (some "b") "m"⟩

end Orch
